import Mathlib

set_option maxRecDepth 100000

/-!
Verification of the article-summary-generator service core: request
validation (backend/models.py), the prompt builder and bounded-retry
executor (services/gemini_service.py), the telemetry pass-through
(services/langsmith_service.py) and the endpoint error mapping
(backend/main.py), shallowly embedded in Lean.
-/

namespace ArticleSummary

/-! ## Whitespace, normalization and word splitting (backend/models.py) -/

/-- Python whitespace class: the characters matched by the regex class
used in re.sub and by str.split and str.strip on ASCII text. -/
def isSpace (c : Char) : Bool :=
  c == ' ' || c == '\t' || c == '\n' || c == '\r' || c == '\x0b' || c == '\x0c'

/-- Replace every maximal run of whitespace by a single space character,
the effect of the regex substitution in validate_text. -/
def collapseWs : List Char → List Char
  | [] => []
  | [c] => if isSpace c then [' '] else [c]
  | c :: d :: rest =>
    if isSpace c && isSpace d then collapseWs (d :: rest)
    else (if isSpace c then ' ' else c) :: collapseWs (d :: rest)

/-- Drop leading whitespace. -/
def ltrim (l : List Char) : List Char := l.dropWhile isSpace

/-- Drop trailing whitespace. -/
def rtrim (l : List Char) : List Char := (l.reverse.dropWhile isSpace).reverse

/-- Drop whitespace at both ends, as Python str.strip. -/
def trim (l : List Char) : List Char := rtrim (ltrim l)

/-- The whitespace normalization performed inside validate_text:
collapse runs, then strip the ends. -/
def normalizeWs (l : List Char) : List Char := trim (collapseWs l)

/-- Split into maximal whitespace-free nonempty words, as Python
str.split with no separator argument. -/
def words : List Char → List (List Char)
  | [] => []
  | c :: rest =>
    if isSpace c then words rest
    else
      match rest with
      | [] => [[c]]
      | d :: _ =>
        if isSpace d then [c] :: words rest
        else
          match words rest with
          | [] => [[c]]
          | w :: ws => (c :: w) :: ws

/-- Number of whitespace-delimited words. -/
def wordCount (l : List Char) : Nat := (words l).length

/-- Word count of a string, len of str.split in Python. -/
def wordCountS (s : String) : Nat := wordCount s.data

/-- Python str.strip on a string. -/
def strTrim (s : String) : String := String.mk (trim s.data)

/-! ## Request validation (SummaryRequest in backend/models.py)

The pydantic field declares min_length 50 and max_length 50000, which
pydantic checks against the raw field value before the custom validator
runs; the validator then rejects whitespace-only text, collapses
whitespace, and requires at least 10 words of the normalized text,
returning the normalized text. -/

/-- Validation of the text field of SummaryRequest: the Field length
bounds on the raw value, then the validate_text validator. -/
def validateText (s : List Char) : Except String (List Char) :=
  if s.length < 50 ∨ 50000 < s.length then
    .error "String should have at least 50 and at most 50000 characters"
  else if trim s = [] then
    .error "Text cannot be empty or only whitespace"
  else
    let v := normalizeWs s
    if wordCount v < 10 then .error "Text must contain at least 10 words"
    else .ok v

/-! ## Prompt builder (_get_summary_prompt in services/gemini_service.py) -/

/-- The short tier instruction string. -/
def instrShort : String := "in 2-3 sentences (50-100 words)"

/-- The medium tier instruction string. -/
def instrMedium : String := "in 1-2 paragraphs (100-200 words)"

/-- The long tier instruction string. -/
def instrLong : String := "in 2-3 paragraphs (200-300 words)"

/-- The dictionary lookup length_instructions.get with the medium
instruction as default. -/
def lengthInstruction (len : String) : String :=
  if len = "short" then instrShort
  else if len = "medium" then instrMedium
  else if len = "long" then instrLong
  else instrMedium

/-- Text of the prompt template before the instruction. -/
def promptPre : String :=
  "\n        Please provide a comprehensive summary of the following text "

/-- Text of the prompt template between the instruction and the article text. -/
def promptMid : String :=
  ".\n\n        Focus on:\n        1. Main topics and key points\n        2. Important facts and findings\n        3. Conclusions or recommendations if present\n        4. Keep the summary coherent and well-structured\n\n        Text to summarize:\n        "

/-- Text of the prompt template after the article text. -/
def promptSuf : String := "\n\n        Summary:\n        "

/-- The rendered prompt of _get_summary_prompt. -/
def getSummaryPrompt (text len : String) : String :=
  promptPre ++ lengthInstruction len ++ promptMid ++ text ++ promptSuf

/-! ## Remote call outcomes and the retry loop (summarize_text) -/

/-- Python exceptions relevant to the pipeline. -/
inductive PyErr where
  | valueError (msg : String)
  | runtimeError (msg : String)
  | apiError (msg : String)
deriving DecidableEq

/-- The object returned by the remote generation call; its text
attribute may be absent. -/
structure GenResponse where
  text : Option String
deriving DecidableEq

/-- What one invocation of the remote generation call does: raise, or
return a possibly missing response object. -/
inductive CallOutcome where
  | raises (e : PyErr)
  | returns (resp : Option GenResponse)
deriving DecidableEq

/-- The body of one loop iteration after the remote call: a falsy
response or falsy response.text raises the empty-response ValueError,
otherwise the text is the attempt result. -/
def attemptResult : CallOutcome → Except PyErr String
  | .raises e => .error e
  | .returns none => .error (.valueError "Empty response from Gemini API")
  | .returns (some r) =>
    match r.text with
    | none => .error (.valueError "Empty response from Gemini API")
    | some s =>
      if s = "" then .error (.valueError "Empty response from Gemini API")
      else .ok s

/-- An attempt whose remote call returned, but with a falsy response
object or a falsy text payload: the condition of the empty-response
check in summarize_text. -/
def isEmptyOutcome : CallOutcome → Bool
  | .raises _ => false
  | .returns none => true
  | .returns (some r) =>
    match r.text with
    | none => true
    | some s => s == ""

/-- Observable trace of the retry loop: how many remote calls were
made, the backoff sleeps issued in order, and the final outcome. -/
structure Trace where
  calls : Nat
  sleeps : List Nat
  outcome : Except PyErr String

/-- The for-loop of summarize_text over the list of attempt indices
range max_retries: on failure at the last index the exception is
re-raised, otherwise the loop sleeps 2 to the power attempt and
continues; falling out of the loop raises RuntimeError. -/
def runLoop (behavior : Nat → CallOutcome) (maxRetries : Nat) : List Nat → Trace
  | [] =>
    { calls := 0, sleeps := []
      outcome := .error (.runtimeError "Failed to generate summary after all retries") }
  | attempt :: rest =>
    match attemptResult (behavior attempt) with
    | .ok summary => { calls := 1, sleeps := [], outcome := .ok summary }
    | .error e =>
      if attempt = maxRetries - 1 then
        { calls := 1, sleeps := [], outcome := .error e }
      else
        let t := runLoop behavior maxRetries rest
        { calls := t.calls + 1, sleeps := 2 ^ attempt :: t.sleeps, outcome := t.outcome }

/-- The result dictionary built by a successful attempt. -/
structure SummaryResult where
  summary : String
  original_length : Nat
  summary_length : Nat
  compression_ratio : ℚ
deriving DecidableEq

/-- The metric computation of the success branch of summarize_text:
strip the generated text, count words of input and output, and divide
unless the input word count is zero. -/
def mkSummaryResult (text rawSummary : String) : SummaryResult :=
  let summary := strTrim rawSummary
  let originalLength := wordCountS text
  let summaryWordCount := wordCountS summary
  { summary := summary
    original_length := originalLength
    summary_length := summaryWordCount
    compression_ratio :=
      if 0 < originalLength then (summaryWordCount : ℚ) / (originalLength : ℚ) else 0 }

/-- Trace of a whole summarize_text call. -/
structure RunResult where
  calls : Nat
  sleeps : List Nat
  result : Except PyErr SummaryResult

/-- summarize_text: run the retry loop over range max_retries with the
rendered prompt; a successful raw text is turned into the result
dictionary. -/
def summarizeText (text summaryLength : String) (maxRetries : Nat)
    (behavior : String → Nat → CallOutcome) : RunResult :=
  let t := runLoop (behavior (getSummaryPrompt text summaryLength)) maxRetries
      (List.range maxRetries)
  { calls := t.calls
    sleeps := t.sleeps
    result := t.outcome.map (fun s => mkSummaryResult text s) }

/-! ## Telemetry (track_summarization in services/langsmith_service.py) -/

/-- The metadata dictionary assembled inside track_summarization. -/
structure TelemetryMetadata where
  input_length : Nat
  input_word_count : Nat
  summary_length_setting : String
  output_word_count : Nat
  compression_ratio : ℚ
  model : String
deriving DecidableEq

/-- The metadata values computed from the request and the result. -/
def metadataOf (text slen : String) (result : SummaryResult) : TelemetryMetadata :=
  { input_length := text.length
    input_word_count := wordCountS text
    summary_length_setting := slen
    output_word_count := result.summary_length
    compression_ratio := result.compression_ratio
    model := "gemini-pro" }

/-- track_summarization: when disabled return the result unchanged;
when enabled run the metrics logging inside a try block whose except
clause swallows every exception, and return the result unchanged. -/
def trackSummarization (enabled : Bool)
    (logMetrics : TelemetryMetadata → Except PyErr Unit)
    (text slen : String) (result : SummaryResult) : Except PyErr SummaryResult :=
  if enabled = false then .ok result
  else
    match logMetrics (metadataOf text slen result) with
    | .ok _ => .ok result
    | .error _ => .ok result

/-! ## Endpoint error mapping (summarize_article in backend/main.py) -/

/-- HTTP-level outcome of the summarize endpoint. -/
inductive ApiResponse where
  | success (resp : SummaryResult)
  | httpError (status : Nat) (error : String) (errorCode : String)
deriving DecidableEq

/-- The except clauses of summarize_article: a ValueError raised in
the try body is mapped to 400 VALIDATION_ERROR, every other exception
to 500 SUMMARIZATION_ERROR. -/
def mapException : PyErr → ApiResponse
  | .valueError _ => .httpError 400 "Validation error" "VALIDATION_ERROR"
  | _ => .httpError 500 "Summarization failed" "SUMMARIZATION_ERROR"

/-- The try and except structure of summarize_article: await the
service call, then the telemetry pass-through; an exception raised by
either goes to the except clauses, otherwise the tracked result is
returned. -/
def summarizeArticle (gemOutcome : Except PyErr SummaryResult)
    (enabled : Bool) (logMetrics : TelemetryMetadata → Except PyErr Unit)
    (text slen : String) : ApiResponse :=
  match gemOutcome with
  | .error e => mapException e
  | .ok r =>
    match trackSummarization enabled logMetrics text slen r with
    | .error e => mapException e
    | .ok r2 => .success r2

/-! ## Lemmas about trimming -/

theorem dropWhile_head_false (p : Char → Bool) :
    ∀ (l : List Char) (c : Char) (t : List Char), l.dropWhile p = c :: t → p c = false := by
  intro l
  induction l with
  | nil => intro c t h; simp at h
  | cons a l ih =>
    intro c t h
    rw [List.dropWhile_cons] at h
    by_cases hp : p a
    · rw [if_pos hp] at h; exact ih c t h
    · rw [if_neg hp] at h
      cases h
      simpa using hp

theorem dropWhile_dropWhile (p : Char → Bool) (l : List Char) :
    (l.dropWhile p).dropWhile p = l.dropWhile p := by
  cases h : l.dropWhile p with
  | nil => rfl
  | cons c t =>
    rw [List.dropWhile_cons, if_neg]
    simp [dropWhile_head_false p l c t h]

theorem ltrim_idem (l : List Char) : ltrim (ltrim l) = ltrim l :=
  dropWhile_dropWhile isSpace l

theorem rtrim_isPrefix (l : List Char) : rtrim l <+: l := by
  have h : (rtrim l).reverse <:+ l.reverse := by
    unfold rtrim
    rw [List.reverse_reverse]
    exact List.dropWhile_suffix isSpace
  exact List.reverse_suffix.mp h

theorem rtrim_idem (l : List Char) : rtrim (rtrim l) = rtrim l := by
  unfold rtrim
  rw [List.reverse_reverse, dropWhile_dropWhile]

theorem ltrim_rtrim_of_ltrimmed {l : List Char} (h : ltrim l = l) :
    ltrim (rtrim l) = rtrim l := by
  cases hr : rtrim l with
  | nil => rfl
  | cons c t =>
    have hpre : (c :: t) <+: l := hr ▸ rtrim_isPrefix l
    obtain ⟨r, hrr⟩ := hpre
    have hc : isSpace c = false := by
      apply dropWhile_head_false isSpace l c (t ++ r)
      show ltrim l = c :: (t ++ r)
      rw [h, ← hrr]
      simp
    unfold ltrim
    rw [List.dropWhile_cons, if_neg (by simp [hc])]

theorem trim_idem (l : List Char) : trim (trim l) = trim l := by
  unfold trim
  rw [ltrim_rtrim_of_ltrimmed (ltrim_idem l), rtrim_idem]

theorem trim_isInfix (l : List Char) : trim l <:+: l := by
  have h1 : trim l <+: ltrim l := rtrim_isPrefix (ltrim l)
  have h2 : ltrim l <:+ l := List.dropWhile_suffix isSpace
  exact h1.isInfix.trans h2.isInfix

theorem trim_length_le (l : List Char) : (trim l).length ≤ l.length :=
  (trim_isInfix l).sublist.length_le

/-! ## Lemmas about whitespace collapsing -/

theorem mem_collapseWs : ∀ {l : List Char} {x : Char}, x ∈ collapseWs l → x ∈ l ∨ x = ' '
  | [], x, h => by simp [collapseWs] at h
  | [c], x, h => by
    by_cases hs : isSpace c
    · simp [collapseWs, hs] at h; right; exact h
    · simp [collapseWs, hs] at h; left; simp [h]
  | c :: d :: rest, x, h => by
    unfold collapseWs at h
    by_cases hcd : isSpace c && isSpace d
    · rw [if_pos hcd] at h
      rcases mem_collapseWs h with h1 | h2
      · left; exact List.mem_cons_of_mem c h1
      · right; exact h2
    · rw [if_neg hcd] at h
      rcases List.mem_cons.mp h with h1 | h2
      · by_cases hc : isSpace c
        · right; simpa [hc] using h1
        · left; simp [hc] at h1; simp [h1]
      · rcases mem_collapseWs h2 with h3 | h4
        · left; exact List.mem_cons_of_mem c h3
        · right; exact h4

theorem collapseWs_length_le : ∀ (l : List Char), (collapseWs l).length ≤ l.length
  | [] => by simp [collapseWs]
  | [c] => by by_cases hs : isSpace c <;> simp [collapseWs, hs]
  | c :: d :: rest => by
    unfold collapseWs
    by_cases hcd : isSpace c && isSpace d
    · rw [if_pos hcd]
      have := collapseWs_length_le (d :: rest)
      simp only [List.length_cons] at this ⊢
      omega
    · rw [if_neg hcd]
      have := collapseWs_length_le (d :: rest)
      simp only [List.length_cons] at this ⊢
      omega

theorem collapseWs_cons_of_nonspace {d : Char} (rest : List Char) (hd : isSpace d = false) :
    ∃ t, collapseWs (d :: rest) = d :: t := by
  cases rest with
  | nil => exact ⟨[], by simp [collapseWs, hd]⟩
  | cons e rest2 =>
    refine ⟨collapseWs (e :: rest2), ?_⟩
    simp only [collapseWs]
    rw [if_neg (by simp [hd]), if_neg (by simp [hd])]

/-- A character list with no whitespace characters other than the
space character and no two adjacent whitespace characters: the shape
produced by collapsing whitespace runs. -/
def Clean (l : List Char) : Prop :=
  (∀ c ∈ l, isSpace c = true → c = ' ') ∧
  List.Chain' (fun a b => ¬(isSpace a = true ∧ isSpace b = true)) l

theorem clean_nil : Clean [] := ⟨by simp, List.chain'_nil⟩

theorem clean_collapseWs : ∀ (l : List Char), Clean (collapseWs l)
  | [] => clean_nil
  | [c] => by
    by_cases hs : isSpace c
    · have hcol : collapseWs [c] = [' '] := by simp [collapseWs, hs]
      rw [hcol]
      exact ⟨by intro x hx _; simpa using hx, by simp⟩
    · have hcol : collapseWs [c] = [c] := by simp [collapseWs, hs]
      rw [hcol]
      refine ⟨?_, by simp⟩
      intro x hx hsx
      simp at hx
      rw [hx] at hsx
      exact absurd hsx (by simpa using hs)
  | c :: d :: rest => by
    unfold collapseWs
    by_cases hcd : isSpace c && isSpace d
    · rw [if_pos hcd]
      exact clean_collapseWs (d :: rest)
    · rw [if_neg hcd]
      obtain ⟨hmem, hchain⟩ := clean_collapseWs (d :: rest)
      constructor
      · intro x hx hsx
        rcases List.mem_cons.mp hx with h1 | h2
        · by_cases hc : isSpace c
          · simpa [hc] using h1
          · rw [h1] at hsx; simp [hc] at hsx
        · exact hmem x h2 hsx
      · rw [List.chain'_cons']
        refine ⟨?_, hchain⟩
        intro y hy
        by_cases hc : isSpace c
        · have hd : isSpace d = false := by
            cases hdd : isSpace d
            · rfl
            · simp [hc, hdd] at hcd
          obtain ⟨t, ht⟩ := collapseWs_cons_of_nonspace rest hd
          rw [ht] at hy
          simp at hy
          intro hpair
          rw [← hy] at hpair
          rw [hd] at hpair
          exact absurd hpair.2 (by simp)
        · simp only [if_neg hc]
          intro hpair
          exact absurd hpair.1 (by simp [hc])

theorem collapseWs_of_clean : ∀ {l : List Char}, Clean l → collapseWs l = l
  | [], _ => rfl
  | [c], h => by
    by_cases hs : isSpace c
    · have : c = ' ' := h.1 c (by simp) hs
      simp [collapseWs, hs, this]
    · simp [collapseWs, hs]
  | c :: d :: rest, h => by
    have hpair : ¬(isSpace c = true ∧ isSpace d = true) :=
      (List.chain'_cons'.mp h.2).1 d (by simp)
    have htail : Clean (d :: rest) := by
      refine ⟨?_, (List.chain'_cons'.mp h.2).2⟩
      intro x hx hsx
      exact h.1 x (List.mem_cons_of_mem c hx) hsx
    unfold collapseWs
    rw [if_neg (by simpa using hpair)]
    rw [collapseWs_of_clean htail]
    by_cases hc : isSpace c
    · rw [if_pos hc, h.1 c (by simp) hc]
    · rw [if_neg hc]

theorem clean_of_isInfix {l l2 : List Char} (h : Clean l) (hinf : l2 <:+: l) : Clean l2 := by
  refine ⟨?_, List.Chain'.infix h.2 hinf⟩
  intro x hx hsx
  exact h.1 x (hinf.sublist.mem hx) hsx

/-! ## Idempotence and size of normalization -/

theorem normalizeWs_idem (l : List Char) : normalizeWs (normalizeWs l) = normalizeWs l := by
  unfold normalizeWs
  have h2 : Clean (trim (collapseWs l)) :=
    clean_of_isInfix (clean_collapseWs l) (trim_isInfix _)
  rw [collapseWs_of_clean h2, trim_idem]

theorem normalizeWs_length_le (l : List Char) : (normalizeWs l).length ≤ l.length :=
  le_trans (trim_length_le _) (collapseWs_length_le l)

theorem trim_normalizeWs (l : List Char) : trim (normalizeWs l) = normalizeWs l :=
  trim_idem _

/-! ## Words of whitespace-only text -/

theorem all_space_of_trim_eq_nil {l : List Char} (h : trim l = []) :
    ∀ c ∈ l, isSpace c = true := by
  have h2 : (ltrim l).reverse.dropWhile isSpace = [] := by
    unfold trim rtrim at h
    have := congrArg List.reverse h
    rwa [List.reverse_reverse] at this
  have h3 : ∀ c ∈ ltrim l, isSpace c = true := by
    intro c hc
    exact List.dropWhile_eq_nil_iff.mp h2 c (List.mem_reverse.mpr hc)
  intro c hc
  rw [← List.takeWhile_append_dropWhile isSpace l] at hc
  rcases List.mem_append.mp hc with h4 | h5
  · exact List.mem_takeWhile_imp h4
  · exact h3 c h5

theorem normalizeWs_eq_nil_of_all_space {l : List Char}
    (h : ∀ c ∈ l, isSpace c = true) : normalizeWs l = [] := by
  have hall : ∀ c ∈ collapseWs l, isSpace c = true := by
    intro c hc
    rcases mem_collapseWs hc with h1 | h2
    · exact h c h1
    · rw [h2]; rfl
  have hlt : ltrim (collapseWs l) = [] := List.dropWhile_eq_nil_iff.mpr hall
  unfold normalizeWs trim
  rw [hlt]
  rfl

theorem wordCount_pos_trim_ne_nil {l : List Char}
    (h : 1 ≤ wordCount (normalizeWs l)) : trim l ≠ [] := by
  intro hnil
  have := normalizeWs_eq_nil_of_all_space (all_space_of_trim_eq_nil hnil)
  rw [this] at h
  simp [wordCount, words] at h

/-! ## Validation lemmas -/

theorem validateText_error_of_length {s : List Char}
    (h : s.length < 50 ∨ 50000 < s.length) : ∃ m, validateText s = .error m := by
  refine ⟨"String should have at least 50 and at most 50000 characters", ?_⟩
  unfold validateText
  rw [if_pos h]

theorem validateText_ok_of {s : List Char} (h1 : 50 ≤ s.length) (h2 : s.length ≤ 50000)
    (hw : 10 ≤ wordCount (normalizeWs s)) : validateText s = .ok (normalizeWs s) := by
  unfold validateText
  rw [if_neg (by omega), if_neg (by simpa using wordCount_pos_trim_ne_nil (by omega)), if_neg (by omega)]

theorem validateText_ok_inv {s t : List Char} (h : validateText s = .ok t) :
    t = normalizeWs s ∧ 10 ≤ wordCount t ∧ 50 ≤ s.length ∧ s.length ≤ 50000 := by
  unfold validateText at h
  by_cases hlen : s.length < 50 ∨ 50000 < s.length
  · rw [if_pos hlen] at h; exact absurd h (by simp)
  · rw [if_neg hlen] at h
    by_cases htr : trim s = []
    · rw [if_pos htr] at h; exact absurd h (by simp)
    · rw [if_neg htr] at h
      by_cases hw : wordCount (normalizeWs s) < 10
      · rw [if_pos hw] at h; exact absurd h (by simp)
      · rw [if_neg hw] at h
        have ht : t = normalizeWs s := by
          cases h; rfl
        refine ⟨ht, ?_, by omega, by omega⟩
        rw [ht]; omega

/-! ## Retry loop trace lemmas -/

theorem except_isOk_false_iff {e : Type} {a : Type} (o : Except e a) :
    o.isOk = false ↔ ∃ err, o = .error err := by
  cases o with
  | error err => simp [Except.isOk, Except.toBool]
  | ok v => simp [Except.isOk, Except.toBool]

theorem except_isOk_true_iff {e : Type} {a : Type} (o : Except e a) :
    o.isOk = true ↔ ∃ v, o = .ok v := by
  cases o with
  | error err => simp [Except.isOk, Except.toBool]
  | ok v => simp [Except.isOk, Except.toBool]

theorem runLoop_cons_error (b : Nat → CallOutcome) (n a : Nat) (rest : List Nat) (e : PyErr)
    (he : attemptResult (b a) = .error e) :
    runLoop b n (a :: rest) =
      if a = n - 1 then { calls := 1, sleeps := [], outcome := .error e }
      else { calls := (runLoop b n rest).calls + 1,
             sleeps := 2 ^ a :: (runLoop b n rest).sleeps,
             outcome := (runLoop b n rest).outcome } := by
  show (match attemptResult (b a) with
    | .ok summary => { calls := 1, sleeps := [], outcome := Except.ok summary }
    | .error e =>
      if a = n - 1 then { calls := 1, sleeps := [], outcome := Except.error e }
      else { calls := (runLoop b n rest).calls + 1,
             sleeps := 2 ^ a :: (runLoop b n rest).sleeps,
             outcome := (runLoop b n rest).outcome } : Trace) = _
  rw [he]

theorem runLoop_cons_ok (b : Nat → CallOutcome) (n a : Nat) (rest : List Nat) (v : String)
    (hv : attemptResult (b a) = .ok v) :
    runLoop b n (a :: rest) = { calls := 1, sleeps := [], outcome := .ok v } := by
  show (match attemptResult (b a) with
    | .ok summary => { calls := 1, sleeps := [], outcome := Except.ok summary }
    | .error e =>
      if a = n - 1 then { calls := 1, sleeps := [], outcome := Except.error e }
      else { calls := (runLoop b n rest).calls + 1,
             sleeps := 2 ^ a :: (runLoop b n rest).sleeps,
             outcome := (runLoop b n rest).outcome } : Trace) = _
  rw [hv]

theorem runLoop_all_fail (b : Nat → CallOutcome) (n : Nat) :
    ∀ (k s : Nat), s + k = n →
      (∀ i, s ≤ i → i < n → (attemptResult (b i)).isOk = false) →
      (runLoop b n (List.range' s k)).calls = k ∧
      (runLoop b n (List.range' s k)).sleeps = (List.range' s (k - 1)).map (fun i => 2 ^ i) ∧
      ∃ e, (runLoop b n (List.range' s k)).outcome = .error e := by
  intro k
  induction k with
  | zero =>
    intro s hsum hf
    refine ⟨rfl, rfl, ?_⟩
    exact ⟨.runtimeError "Failed to generate summary after all retries", rfl⟩
  | succ k ih =>
    intro s hsum hf
    obtain ⟨e, he⟩ := (except_isOk_false_iff _).mp (hf s (le_refl s) (by omega))
    rw [List.range'_succ, runLoop_cons_error b n s _ e he]
    cases k with
    | zero =>
      rw [if_pos (by omega : s = n - 1)]
      exact ⟨rfl, rfl, ⟨e, rfl⟩⟩
    | succ k2 =>
      rw [if_neg (by omega : ¬ s = n - 1)]
      obtain ⟨ihc, ihs, ihe⟩ := ih (s + 1) (by omega) (fun i h1 h2 => hf i (by omega) h2)
      refine ⟨?_, ?_, ihe⟩
      · show (runLoop b n (List.range' (s + 1) (k2 + 1))).calls + 1 = k2 + 1 + 1
        rw [ihc]
      · show 2 ^ s :: (runLoop b n (List.range' (s + 1) (k2 + 1))).sleeps =
          (List.range' s (k2 + 1 + 1 - 1)).map (fun i => 2 ^ i)
        rw [ihs]
        rw [show k2 + 1 + 1 - 1 = k2 + 1 from rfl, List.range'_succ]
        simp

theorem runLoop_first_success (b : Nat → CallOutcome) (n : Nat) (v : String) :
    ∀ (k s j : Nat), s + k = n → s ≤ j → j < n →
      (∀ i, s ≤ i → i < j → (attemptResult (b i)).isOk = false) →
      attemptResult (b j) = .ok v →
      (runLoop b n (List.range' s k)).calls = j - s + 1 ∧
      (runLoop b n (List.range' s k)).sleeps = (List.range' s (j - s)).map (fun i => 2 ^ i) ∧
      (runLoop b n (List.range' s k)).outcome = .ok v := by
  intro k
  induction k with
  | zero =>
    intro s j hsum hsj hjn hf hok
    omega
  | succ k ih =>
    intro s j hsum hsj hjn hf hok
    rw [List.range'_succ]
    by_cases hj : j = s
    · rw [hj] at hok
      rw [runLoop_cons_ok b n s _ v hok, hj]
      refine ⟨by simp, by simp [Nat.sub_self], rfl⟩
    · obtain ⟨e, he⟩ := (except_isOk_false_iff _).mp (hf s (le_refl s) (by omega))
      rw [runLoop_cons_error b n s _ e he, if_neg (by omega : ¬ s = n - 1)]
      obtain ⟨ihc, ihs, ihe⟩ := ih (s + 1) j (by omega) (by omega) hjn
        (fun i h1 h2 => hf i (by omega) h2) hok
      refine ⟨?_, ?_, ihe⟩
      · show (runLoop b n (List.range' (s + 1) k)).calls + 1 = j - s + 1
        rw [ihc]; omega
      · show 2 ^ s :: (runLoop b n (List.range' (s + 1) k)).sleeps =
          (List.range' s (j - s)).map (fun i => 2 ^ i)
        rw [ihs]
        rw [show j - s = (j - (s + 1)) + 1 by omega, List.range'_succ]
        simp

theorem runLoop_congr_fail (b b2 : Nat → CallOutcome) (n : Nat) (i : Nat)
    (hagree : ∀ j, j ≠ i → b2 j = b j)
    (hfb : (attemptResult (b i)).isOk = false)
    (hfb2 : (attemptResult (b2 i)).isOk = false) :
    ∀ (L : List Nat),
      (runLoop b2 n L).calls = (runLoop b n L).calls ∧
      (runLoop b2 n L).sleeps = (runLoop b n L).sleeps ∧
      ∀ v, ((runLoop b2 n L).outcome = .ok v ↔ (runLoop b n L).outcome = .ok v) := by
  intro L
  induction L with
  | nil => exact ⟨rfl, rfl, by intro v; exact Iff.rfl⟩
  | cons a rest ih =>
    by_cases ha : a = i
    · obtain ⟨e, he⟩ := (except_isOk_false_iff _).mp hfb
      obtain ⟨e2, he2⟩ := (except_isOk_false_iff _).mp hfb2
      rw [ha]
      rw [runLoop_cons_error b n i rest e (by rw [he]),
        runLoop_cons_error b2 n i rest e2 (by rw [he2])]
      by_cases hlast : i = n - 1
      · rw [if_pos hlast, if_pos hlast]
        exact ⟨rfl, rfl, by intro v; simp⟩
      · rw [if_neg hlast, if_neg hlast]
        obtain ⟨ihc, ihs, ihe⟩ := ih
        refine ⟨?_, ?_, ?_⟩
        · show (runLoop b2 n rest).calls + 1 = (runLoop b n rest).calls + 1
          rw [ihc]
        · show 2 ^ i :: (runLoop b2 n rest).sleeps = 2 ^ i :: (runLoop b n rest).sleeps
          rw [ihs]
        · intro v
          exact ihe v
    · have heq : attemptResult (b2 a) = attemptResult (b a) := by rw [hagree a ha]
      cases hres : attemptResult (b a) with
      | ok v =>
        rw [runLoop_cons_ok b n a rest v hres,
          runLoop_cons_ok b2 n a rest v (by rw [heq, hres])]
        exact ⟨rfl, rfl, by intro w; exact Iff.rfl⟩
      | error e =>
        rw [runLoop_cons_error b n a rest e hres,
          runLoop_cons_error b2 n a rest e (by rw [heq, hres])]
        by_cases hlast : a = n - 1
        · rw [if_pos hlast, if_pos hlast]
          exact ⟨rfl, rfl, by intro v; exact Iff.rfl⟩
        · rw [if_neg hlast, if_neg hlast]
          obtain ⟨ihc, ihs, ihe⟩ := ih
          refine ⟨?_, ?_, ?_⟩
          · show (runLoop b2 n rest).calls + 1 = (runLoop b n rest).calls + 1
            rw [ihc]
          · show 2 ^ a :: (runLoop b2 n rest).sleeps = 2 ^ a :: (runLoop b n rest).sleeps
            rw [ihs]
          · intro v
            exact ihe v

/-! ## Substring reasoning for the prompt builder -/

theorem take_append_all {x y : List Char} {n : Nat} (h : x.length ≤ n) :
    (x ++ y).take n = x ++ y.take (n - x.length) := by
  rw [List.take_append_eq_append_take, List.take_of_length_le h]

theorem drop_append_all {x y : List Char} {n : Nat} (h : x.length ≤ n) :
    (x ++ y).drop n = y.drop (n - x.length) := by
  rw [List.drop_append_eq_append_drop, List.drop_eq_nil_of_le h, List.nil_append]

theorem not_isInfix_append {p A B : List Char}
    (hA : ¬ p <:+: A) (hB : ¬ p <:+: B)
    (hX : ∀ k, k < p.length → 0 < k → ¬ (p.take k <:+ A ∧ p.drop k <+: B)) :
    ¬ p <:+: A ++ B := by
  rintro ⟨u, v, huv⟩
  by_cases h1 : u.length + p.length ≤ A.length
  · apply hA
    have hup : (u ++ p).length ≤ A.length := by rw [List.length_append]; exact h1
    have htake := congrArg (List.take A.length) huv
    rw [List.take_left] at htake
    rw [take_append_all hup] at htake
    exact ⟨u, v.take (A.length - (u ++ p).length), htake⟩
  · by_cases h2 : A.length ≤ u.length
    · apply hB
      have h2p : A.length ≤ (u ++ p).length := by rw [List.length_append]; omega
      have hdrop := congrArg (List.drop A.length) huv
      rw [List.drop_left] at hdrop
      rw [List.drop_append_eq_append_drop, Nat.sub_eq_zero_of_le h2p, List.drop_zero] at hdrop
      rw [List.drop_append_eq_append_drop, Nat.sub_eq_zero_of_le h2, List.drop_zero] at hdrop
      exact ⟨u.drop A.length, v, hdrop⟩
    · have h3p : A.length ≤ (u ++ p).length := by rw [List.length_append]; omega
      have htake := congrArg (List.take A.length) huv
      rw [List.take_left] at htake
      rw [List.take_append_eq_append_take, Nat.sub_eq_zero_of_le h3p, List.take_zero,
        List.append_nil] at htake
      rw [take_append_all (by omega : u.length ≤ A.length)] at htake
      have hdrop := congrArg (List.drop A.length) huv
      rw [List.drop_left] at hdrop
      rw [List.drop_append_eq_append_drop, Nat.sub_eq_zero_of_le h3p, List.drop_zero] at hdrop
      rw [drop_append_all (by omega : u.length ≤ A.length)] at hdrop
      exact hX (A.length - u.length) (by omega) (by omega) ⟨⟨u, htake⟩, ⟨v, hdrop⟩⟩

theorem not_isInfix_three {p M T S : List Char}
    (hM : ¬ p <:+: M)
    (hcrossM : ∀ k, k < p.length → 0 < k → ¬ p.take k <:+ M)
    (hT : ¬ p <:+: T)
    (hS : ¬ p <:+: S)
    (hcrossS : ∀ k, k < p.length → 0 < k → ¬ p.drop k <+: S) :
    ¬ p <:+: M ++ (T ++ S) := by
  apply not_isInfix_append hM
  · apply not_isInfix_append hT hS
    intro k hk hk0 hand
    exact hcrossS k hk hk0 hand.2
  · intro k hk hk0 hand
    exact hcrossM k hk hk0 hand.1

/-! ## Prompt structure facts -/

/-- The fixed part of the prompt before the article text, when the
short instruction is chosen. -/
def headShort : String := promptPre ++ instrShort ++ promptMid

/-- The fixed part of the prompt before the article text, when the
medium instruction is chosen. -/
def headMedium : String := promptPre ++ instrMedium ++ promptMid

/-- The fixed part of the prompt before the article text, when the
long instruction is chosen. -/
def headLong : String := promptPre ++ instrLong ++ promptMid

/-- The instruction string appears in the prompt. -/
def ContainsInstr (i p : String) : Prop := i.data <:+: p.data

/-- Exactly one of the three fixed tier instruction strings occurs as
a substring of the prompt. -/
def ExactlyOneInstr (p : String) : Prop :=
  (ContainsInstr instrShort p ∧ ¬ ContainsInstr instrMedium p ∧ ¬ ContainsInstr instrLong p) ∨
  (¬ ContainsInstr instrShort p ∧ ContainsInstr instrMedium p ∧ ¬ ContainsInstr instrLong p) ∨
  (¬ ContainsInstr instrShort p ∧ ¬ ContainsInstr instrMedium p ∧ ContainsInstr instrLong p)

theorem prompt_data (text tok : String) :
    (getSummaryPrompt text tok).data =
      (promptPre ++ lengthInstruction tok ++ promptMid).data ++
        (text.data ++ promptSuf.data) := by
  simp [getSummaryPrompt, String.data_append, List.append_assoc]

theorem text_isInfix_prompt (text tok : String) :
    text.data <:+: (getSummaryPrompt text tok).data :=
  ⟨(promptPre ++ lengthInstruction tok ++ promptMid).data, promptSuf.data,
    by rw [prompt_data, List.append_assoc]⟩

theorem instr_isInfix_prompt (text tok : String) :
    ContainsInstr (lengthInstruction tok) (getSummaryPrompt text tok) :=
  ⟨promptPre.data, (promptMid ++ text ++ promptSuf).data,
    by simp [getSummaryPrompt, String.data_append, List.append_assoc]⟩

theorem notIn_med_headShort : ¬ instrMedium.data <:+: headShort.data := by decide

theorem notIn_long_headShort : ¬ instrLong.data <:+: headShort.data := by decide

theorem notIn_short_headMedium : ¬ instrShort.data <:+: headMedium.data := by decide

theorem notIn_long_headMedium : ¬ instrLong.data <:+: headMedium.data := by decide

theorem notIn_short_headLong : ¬ instrShort.data <:+: headLong.data := by decide

theorem notIn_med_headLong : ¬ instrMedium.data <:+: headLong.data := by decide

theorem cross_med_headShort :
    ∀ k, k < instrMedium.data.length → 0 < k →
      ¬ instrMedium.data.take k <:+ headShort.data := by decide

theorem cross_long_headShort :
    ∀ k, k < instrLong.data.length → 0 < k →
      ¬ instrLong.data.take k <:+ headShort.data := by decide

theorem cross_short_headMedium :
    ∀ k, k < instrShort.data.length → 0 < k →
      ¬ instrShort.data.take k <:+ headMedium.data := by decide

theorem cross_long_headMedium :
    ∀ k, k < instrLong.data.length → 0 < k →
      ¬ instrLong.data.take k <:+ headMedium.data := by decide

theorem cross_short_headLong :
    ∀ k, k < instrShort.data.length → 0 < k →
      ¬ instrShort.data.take k <:+ headLong.data := by decide

theorem cross_med_headLong :
    ∀ k, k < instrMedium.data.length → 0 < k →
      ¬ instrMedium.data.take k <:+ headLong.data := by decide

theorem notIn_short_suf : ¬ instrShort.data <:+: promptSuf.data := by decide

theorem notIn_med_suf : ¬ instrMedium.data <:+: promptSuf.data := by decide

theorem notIn_long_suf : ¬ instrLong.data <:+: promptSuf.data := by decide

theorem crossS_short :
    ∀ k, k < instrShort.data.length → 0 < k →
      ¬ instrShort.data.drop k <+: promptSuf.data := by decide

theorem crossS_med :
    ∀ k, k < instrMedium.data.length → 0 < k →
      ¬ instrMedium.data.drop k <+: promptSuf.data := by decide

theorem crossS_long :
    ∀ k, k < instrLong.data.length → 0 < k →
      ¬ instrLong.data.drop k <+: promptSuf.data := by decide

/-! ## Further helper lemmas -/

theorem attemptResult_of_empty {c : CallOutcome} (h : isEmptyOutcome c = true) :
    attemptResult c = .error (.valueError "Empty response from Gemini API") := by
  cases c with
  | raises e => simp [isEmptyOutcome] at h
  | returns r =>
    cases r with
    | none => rfl
    | some resp =>
      cases hr : resp.text with
      | none => simp [attemptResult, hr]
      | some s =>
        have hs : s = "" := by
          have h2 : (s == "") = true := by
            simpa [isEmptyOutcome, hr] using h
          exact eq_of_beq h2
        simp [attemptResult, hr, hs]

theorem map_ok_iff_of_ok_iff {f : String → SummaryResult} {o1 o2 : Except PyErr String}
    (h : ∀ v, o1 = .ok v ↔ o2 = .ok v) :
    ∀ r, (o1.map f = .ok r ↔ o2.map f = .ok r) := by
  intro r
  cases o1 with
  | ok v =>
    have h2 : o2 = .ok v := (h v).mp rfl
    rw [h2]
  | error e1 =>
    cases o2 with
    | ok w => exact absurd ((h w).mpr rfl) (by simp)
    | error e2 => simp [Except.map]

theorem not_contains_of_parts {p head text q : String}
    (hM : ¬ p.data <:+: head.data)
    (hcM : ∀ k, k < p.data.length → 0 < k → ¬ p.data.take k <:+ head.data)
    (hT : ¬ p.data <:+: text.data)
    (hS : ¬ p.data <:+: promptSuf.data)
    (hcS : ∀ k, k < p.data.length → 0 < k → ¬ p.data.drop k <+: promptSuf.data)
    (hd : q.data = head.data ++ (text.data ++ promptSuf.data)) :
    ¬ ContainsInstr p q := by
  intro hc
  simp only [ContainsInstr] at hc
  rw [hd] at hc
  exact not_isInfix_three hM hcM hT hS hcS hc

theorem exactlyOne_of_medium (text tok : String)
    (hinstr : lengthInstruction tok = instrMedium)
    (hs : ¬ instrShort.data <:+: text.data)
    (hl : ¬ instrLong.data <:+: text.data) :
    ExactlyOneInstr (getSummaryPrompt text tok) := by
  have hd : (getSummaryPrompt text tok).data =
      headMedium.data ++ (text.data ++ promptSuf.data) := by
    rw [prompt_data, hinstr]; rfl
  right; left
  refine ⟨?_, ?_, ?_⟩
  · exact not_contains_of_parts notIn_short_headMedium cross_short_headMedium hs
      notIn_short_suf crossS_short hd
  · have := instr_isInfix_prompt text tok
    rwa [hinstr] at this
  · exact not_contains_of_parts notIn_long_headMedium cross_long_headMedium hl
      notIn_long_suf crossS_long hd

/-! ## Concrete inputs used by witnesses and counterexamples -/

/-- A 13 word, 61 character input whose normalization has 25 characters. -/
def badText : List Char :=
  "a    a    a    a    a    a    a    a    a    a    a    a    a".data

/-- A valid 12 word, 58 character request text, already normalized. -/
def goodString : String := "the quick brown fox jumps over the lazy dog near the river"

/-- Character list of the valid request text. -/
def goodText : List Char := goodString.data

/-- A 100 word article text. -/
def sample100 : String := String.intercalate " " (List.replicate 100 "word")

/-- A 20 word generated summary. -/
def sample20 : String := String.intercalate " " (List.replicate 20 "word")

/-- A remote behavior whose calls always return an empty response. -/
def emptyBehavior : String → Nat → CallOutcome := fun _ _ => .returns none

/-- A remote behavior raising at attempt 1 and returning an empty
response everywhere else. -/
def raisyBehavior : String → Nat → CallOutcome :=
  fun _ j => if j = 1 then .raises (.apiError "API error") else .returns none

/-- A remote behavior failing on attempts 0 and 1 and succeeding from
attempt 2 on. -/
def flakyBehavior : String → Nat → CallOutcome :=
  fun _ j => if j < 2 then .raises (.apiError "API error")
    else .returns (some { text := some "A short summary." })

/-- A plain normalized article text containing no tier instruction. -/
def plainText : String :=
  "The quick brown fox jumps over the lazy dog near the river bank today."

/-! ## Claims -/

/-- Claim C1: the claim states that when all retry attempts fail the
endpoint maps the failure to the 500 SUMMARIZATION_ERROR response and
never to the 400 VALIDATION_ERROR response, regardless of the final
exception type, including the empty-response ValueError. The code
contradicts this: when every attempt returns an empty response, the
exhausted retry loop re-raises the empty-response ValueError, the
except ValueError clause of summarize_article catches it, and the
endpoint answers 400 VALIDATION_ERROR. This theorem evaluates the
pipeline at that failing input. -/
theorem c1_retry_exhaustion_mislabeled_as_validation_error :
    (summarizeText goodString "medium" 3 emptyBehavior).calls = 3 ∧
    summarizeArticle (summarizeText goodString "medium" 3 emptyBehavior).result
        true (fun _ => .ok ()) goodString "medium"
      = .httpError 400 "Validation error" "VALIDATION_ERROR" :=
  ⟨rfl, rfl⟩

/-- Claim C2: for every prompt and every remote-call behavior in which
all attempts fail, summarize_text with max_retries n invokes the
remote generation call exactly n times and then raises a terminal
error to the caller, carrying no partial summary. -/
theorem c2_retry_exhaustion_exact_calls (text slen : String) (n : Nat)
    (behavior : String → Nat → CallOutcome)
    (hfail : ∀ i, i < n →
      (attemptResult (behavior (getSummaryPrompt text slen) i)).isOk = false) :
    (summarizeText text slen n behavior).calls = n ∧
    ∃ e, (summarizeText text slen n behavior).result = .error e := by
  obtain ⟨hc, hs, he⟩ := runLoop_all_fail (behavior (getSummaryPrompt text slen)) n n 0
    (by omega) (fun i h1 h2 => hfail i h2)
  rw [← List.range_eq_range'] at hc he
  refine ⟨hc, ?_⟩
  obtain ⟨e, he2⟩ := he
  refine ⟨e, ?_⟩
  show ((runLoop (behavior (getSummaryPrompt text slen)) n (List.range n)).outcome).map
    (fun s => mkSummaryResult text s) = .error e
  rw [he2]
  rfl

/-- Witness for claim C2 at max_retries 3 with a behavior raising on
every attempt: exactly 3 calls and an error result. -/
theorem c2_witness :
    (summarizeText goodString "medium" 3 (fun _ _ => .raises (.apiError "API error"))).calls
      = 3 ∧
    ∃ e, (summarizeText goodString "medium" 3
      (fun _ _ => .raises (.apiError "API error"))).result = .error e :=
  c2_retry_exhaustion_exact_calls goodString "medium" 3 _ (fun _ _ => rfl)

/-- Claim C3: between failed attempt i and attempt i plus one the
executor sleeps exactly 2 to the power i seconds, and no sleep happens
after the final attempt or after a successful attempt: when all n
attempts fail the sleep trace is exactly the backoffs of the first
n minus 1 failures, and when the first success is at attempt j the
sleep trace is exactly the backoffs of the j preceding failures. -/
theorem c3_exponential_backoff_schedule (text slen : String) (n j : Nat)
    (behavior : String → Nat → CallOutcome) :
    ((∀ i, i < n →
        (attemptResult (behavior (getSummaryPrompt text slen) i)).isOk = false) →
      (summarizeText text slen n behavior).sleeps =
        (List.range (n - 1)).map (fun i => 2 ^ i)) ∧
    (∀ v, j < n →
      (∀ i, i < j →
        (attemptResult (behavior (getSummaryPrompt text slen) i)).isOk = false) →
      attemptResult (behavior (getSummaryPrompt text slen) j) = .ok v →
      (summarizeText text slen n behavior).sleeps =
        (List.range j).map (fun i => 2 ^ i)) := by
  constructor
  · intro hfail
    obtain ⟨hc, hs, he⟩ := runLoop_all_fail (behavior (getSummaryPrompt text slen)) n n 0
      (by omega) (fun i h1 h2 => hfail i h2)
    rw [← List.range_eq_range'] at hs
    rw [← List.range_eq_range'] at hs
    exact hs
  · intro v hjn hfail hok
    obtain ⟨hc, hs, he⟩ := runLoop_first_success (behavior (getSummaryPrompt text slen)) n v
      n 0 j (by omega) (by omega) hjn (fun i h1 h2 => hfail i h2) hok
    rw [← List.range_eq_range'] at hs
    rw [Nat.sub_zero] at hs
    rw [← List.range_eq_range'] at hs
    exact hs

/-- Witness for claim C3: with 3 always-failing attempts the sleeps
are 1 second then 2 seconds; with failures at attempts 0 and 1 and a
success at attempt 2 out of 5, the sleeps are also exactly 1 then 2
and none follow the success. -/
theorem c3_witness :
    (summarizeText goodString "medium" 3
      (fun _ _ => .raises (.apiError "API error"))).sleeps = [1, 2] ∧
    (summarizeText goodString "medium" 5 flakyBehavior).sleeps = [1, 2] := by
  constructor
  · have h := (c3_exponential_backoff_schedule goodString "medium" 3 0
      (fun _ _ => .raises (.apiError "API error"))).1 (fun i _ => rfl)
    rw [h]
    rfl
  · have h := (c3_exponential_backoff_schedule goodString "medium" 5 2 flakyBehavior).2
      "A short summary." (by omega) (by decide) rfl
    rw [h]
    rfl

/-- Claim C4: an attempt whose remote call returns with a missing
response or an empty text payload is treated identically to an attempt
whose call raises: its in-loop outcome is the empty-response
ValueError, and replacing it by a raising attempt leaves the number of
calls, the backoff trace and the success or failure of the run
unchanged. -/
theorem c4_empty_response_is_retry_worthy (text slen : String) (n i : Nat)
    (behavior b2 : String → Nat → CallOutcome) (e : PyErr)
    (hempty : isEmptyOutcome (behavior (getSummaryPrompt text slen) i) = true)
    (hagree : ∀ j, j ≠ i →
      b2 (getSummaryPrompt text slen) j = behavior (getSummaryPrompt text slen) j)
    (hra : b2 (getSummaryPrompt text slen) i = .raises e) :
    attemptResult (behavior (getSummaryPrompt text slen) i)
      = .error (.valueError "Empty response from Gemini API") ∧
    (summarizeText text slen n behavior).calls = (summarizeText text slen n b2).calls ∧
    (summarizeText text slen n behavior).sleeps = (summarizeText text slen n b2).sleeps ∧
    ∀ r, ((summarizeText text slen n behavior).result = .ok r ↔
      (summarizeText text slen n b2).result = .ok r) := by
  have hres := attemptResult_of_empty hempty
  have hfb : (attemptResult (behavior (getSummaryPrompt text slen) i)).isOk = false := by
    rw [hres]; rfl
  have hfb2 : (attemptResult (b2 (getSummaryPrompt text slen) i)).isOk = false := by
    rw [hra]; rfl
  obtain ⟨hc, hs, he⟩ := runLoop_congr_fail (behavior (getSummaryPrompt text slen))
    (b2 (getSummaryPrompt text slen)) n i hagree hfb hfb2 (List.range n)
  refine ⟨hres, hc.symm, hs.symm, ?_⟩
  intro r
  exact (map_ok_iff_of_ok_iff he r).symm

/-- Witness for claim C4: the always-empty behavior and the behavior
raising at attempt 1 produce the same trace over 3 attempts. -/
theorem c4_witness :
    (summarizeText goodString "medium" 3 emptyBehavior).calls
      = (summarizeText goodString "medium" 3 raisyBehavior).calls ∧
    (summarizeText goodString "medium" 3 emptyBehavior).sleeps
      = (summarizeText goodString "medium" 3 raisyBehavior).sleeps := by
  have h := c4_empty_response_is_retry_worthy goodString "medium" 3 1
    emptyBehavior raisyBehavior (.apiError "API error") rfl
    (fun j hj => by simp [raisyBehavior, emptyBehavior, hj]) rfl
  exact ⟨h.2.1, h.2.2.1⟩

/-- Claim C5 counterexample: a 61 character raw input of 13 words
whose normalization has only 25 characters. The claim says validation
of this input fails because the normalized length is below 50, but
validation succeeds: the pydantic length bound is checked on the raw
value before the validator normalizes whitespace. -/
theorem c5_counterexample :
    (normalizeWs badText).length < 50 ∧
    10 ≤ wordCount (normalizeWs badText) ∧
    validateText badText = .ok (normalizeWs badText) := by
  refine ⟨by decide, by decide, rfl⟩

/-- Claim C5 amended: the 50 to 50000 character bound is enforced on
the raw text before whitespace normalization: validation fails for
every input whose raw length falls outside the bounds, and succeeds
for every input whose raw length lies within them and whose normalized
text has at least 10 words. -/
theorem c5_amended_bounds_on_raw_text (s : List Char) :
    ((s.length < 50 ∨ 50000 < s.length) → ∃ m, validateText s = .error m) ∧
    (50 ≤ s.length → s.length ≤ 50000 → 10 ≤ wordCount (normalizeWs s) →
      validateText s = .ok (normalizeWs s)) :=
  ⟨fun h => validateText_error_of_length h,
   fun h1 h2 h3 => validateText_ok_of h1 h2 h3⟩

/-- Witness for claim C5: a 2 character input is rejected and a valid
58 character, 12 word input is accepted with normalized text. -/
theorem c5_witness :
    (∃ m, validateText ("hi".data) = .error m) ∧
    validateText goodText = .ok (normalizeWs goodText) :=
  ⟨(c5_amended_bounds_on_raw_text ("hi".data)).1 (by decide),
   (c5_amended_bounds_on_raw_text goodText).2 (by decide) (by decide) (by decide)⟩

/-- Claim C6 counterexample: the same 61 character, 13 word input
satisfies the claim hypotheses, validation succeeds and returns the
25 character normalized text, but re-validating that returned text
fails its raw length check, so validation is not idempotent as
claimed. -/
theorem c6_counterexample :
    50 ≤ badText.length ∧ badText.length ≤ 50000 ∧ 10 ≤ wordCount badText ∧
    validateText badText = .ok (normalizeWs badText) ∧
    (validateText (normalizeWs badText)).isOk = false := by
  refine ⟨by decide, by decide, by decide, rfl, rfl⟩

/-- Claim C6 amended: under the extra assumption that the normalized
text is itself at least 50 characters long, validation succeeds and is
idempotent: re-validating the returned normalized text succeeds and
returns it unchanged. -/
theorem c6_amended_idempotent_validation (s : List Char)
    (h1 : 50 ≤ s.length) (h2 : s.length ≤ 50000)
    (hw : 10 ≤ wordCount (normalizeWs s))
    (h3 : 50 ≤ (normalizeWs s).length) :
    validateText s = .ok (normalizeWs s) ∧
    validateText (normalizeWs s) = .ok (normalizeWs s) := by
  refine ⟨validateText_ok_of h1 h2 hw, ?_⟩
  have hlen2 : (normalizeWs s).length ≤ 50000 :=
    le_trans (normalizeWs_length_le s) h2
  have hw2 : 10 ≤ wordCount (normalizeWs (normalizeWs s)) := by
    rw [normalizeWs_idem]; exact hw
  have h := validateText_ok_of h3 hlen2 hw2
  rwa [normalizeWs_idem] at h

/-- Witness for claim C6 at the valid 58 character input. -/
theorem c6_witness :
    validateText goodText = .ok (normalizeWs goodText) ∧
    validateText (normalizeWs goodText) = .ok (normalizeWs goodText) :=
  c6_amended_idempotent_validation goodText (by decide) (by decide) (by decide) (by decide)

/-- Claim C7 counterexample: for the normalized input text equal to
the medium instruction string, rendered with the short tier, the
prompt contains both the short and the medium instruction, so it does
not contain exactly one of the three instruction strings. -/
theorem c7_counterexample :
    normalizeWs instrMedium.data = instrMedium.data ∧
    ¬ ExactlyOneInstr (getSummaryPrompt instrMedium "short") := by
  constructor
  · decide
  · intro hone
    have hshort : ContainsInstr instrShort (getSummaryPrompt instrMedium "short") := by
      have h := instr_isInfix_prompt instrMedium "short"
      have h2 : lengthInstruction "short" = instrShort := rfl
      rwa [h2] at h
    have hmed : ContainsInstr instrMedium (getSummaryPrompt instrMedium "short") :=
      text_isInfix_prompt instrMedium "short"
    rcases hone with ⟨_, hno, _⟩ | ⟨hno, _, _⟩ | ⟨hno, _, _⟩
    · exact hno hmed
    · exact hno hshort
    · exact hno hshort

/-- Claim C7 amended: for every normalized input text and tier token,
the prompt contains the verbatim text and the instruction of the
resolved tier, an unknown token resolves to the medium instruction,
and, provided the text does not itself contain any of the three
instruction strings, the prompt contains exactly one of them. -/
theorem c7_amended_prompt_contents (text tok : String)
    (hs : ¬ instrShort.data <:+: text.data)
    (hm : ¬ instrMedium.data <:+: text.data)
    (hl : ¬ instrLong.data <:+: text.data) :
    text.data <:+: (getSummaryPrompt text tok).data ∧
    ContainsInstr (lengthInstruction tok) (getSummaryPrompt text tok) ∧
    (tok ≠ "short" → tok ≠ "medium" → tok ≠ "long" →
      lengthInstruction tok = instrMedium) ∧
    ExactlyOneInstr (getSummaryPrompt text tok) := by
  refine ⟨text_isInfix_prompt text tok, instr_isInfix_prompt text tok, ?_, ?_⟩
  · intro h1 h2 h3
    simp [lengthInstruction, h1, h2, h3]
  · by_cases t1 : tok = "short"
    · have hinstr : lengthInstruction tok = instrShort := by
        simp [lengthInstruction, t1]
      have hd : (getSummaryPrompt text tok).data =
          headShort.data ++ (text.data ++ promptSuf.data) := by
        rw [prompt_data, hinstr]; rfl
      left
      refine ⟨?_, ?_, ?_⟩
      · have h := instr_isInfix_prompt text tok
        rwa [hinstr] at h
      · exact not_contains_of_parts notIn_med_headShort cross_med_headShort hm
          notIn_med_suf crossS_med hd
      · exact not_contains_of_parts notIn_long_headShort cross_long_headShort hl
          notIn_long_suf crossS_long hd
    · by_cases t2 : tok = "medium"
      · exact exactlyOne_of_medium text tok (by simp [lengthInstruction, t1, t2]) hs hl
      · by_cases t3 : tok = "long"
        · have hinstr : lengthInstruction tok = instrLong := by
            simp [lengthInstruction, t1, t2, t3]
          have hd : (getSummaryPrompt text tok).data =
              headLong.data ++ (text.data ++ promptSuf.data) := by
            rw [prompt_data, hinstr]; rfl
          right; right
          refine ⟨?_, ?_, ?_⟩
          · exact not_contains_of_parts notIn_short_headLong cross_short_headLong hs
              notIn_short_suf crossS_short hd
          · exact not_contains_of_parts notIn_med_headLong cross_med_headLong hm
              notIn_med_suf crossS_med hd
          · have h := instr_isInfix_prompt text tok
            rwa [hinstr] at h
        · exact exactlyOne_of_medium text tok
            (by simp [lengthInstruction, t1, t2, t3]) hs hl

/-- Witness for claim C7 at a plain text and an unknown tier token:
the text is embedded, the medium instruction is used as fallback, and
exactly one instruction occurs. -/
theorem c7_witness :
    plainText.data <:+: (getSummaryPrompt plainText "banana").data ∧
    ContainsInstr (lengthInstruction "banana") (getSummaryPrompt plainText "banana") ∧
    ("banana" ≠ "short" → "banana" ≠ "medium" → "banana" ≠ "long" →
      lengthInstruction "banana" = instrMedium) ∧
    ExactlyOneInstr (getSummaryPrompt plainText "banana") :=
  c7_amended_prompt_contents plainText "banana" (by decide) (by decide) (by decide)

/-- Claim C8: the compression ratio of a result equals the summary
word count divided by the original word count when the original word
count is positive, and equals 0 without any error when it is zero;
for a 100 word original and a 20 word summary, produced end to end by
a successful first attempt, it is exactly 0.2. -/
theorem c8_compression_ratio_formula :
    (∀ text raw, 0 < wordCountS text →
      (mkSummaryResult text raw).compression_ratio =
        (wordCountS (strTrim raw) : ℚ) / (wordCountS text : ℚ)) ∧
    (∀ text raw, wordCountS text = 0 →
      (mkSummaryResult text raw).compression_ratio = 0) ∧
    (summarizeText sample100 "medium" 3
        (fun _ _ => .returns (some { text := some sample20 }))).result
      = .ok (mkSummaryResult sample100 sample20) ∧
    (mkSummaryResult sample100 sample20).original_length = 100 ∧
    (mkSummaryResult sample100 sample20).summary_length = 20 ∧
    (mkSummaryResult sample100 sample20).compression_ratio = 0.2 := by
  have hq : ∀ text raw, 0 < wordCountS text →
      (mkSummaryResult text raw).compression_ratio =
        (wordCountS (strTrim raw) : ℚ) / (wordCountS text : ℚ) := by
    intro text raw h
    simp only [mkSummaryResult]
    rw [if_pos h]
  refine ⟨hq, ?_, rfl, rfl, rfl, ?_⟩
  · intro text raw h
    simp only [mkSummaryResult]
    rw [h]
    rfl
  · have h1 : wordCountS sample100 = 100 := rfl
    have h2 : wordCountS (strTrim sample20) = 20 := rfl
    rw [hq sample100 sample20 (by rw [h1]; omega), h1, h2]
    norm_num

/-- Witness for claim C8 applying the quotient case at the 100 word
text and the zero case at the empty text. -/
theorem c8_witness :
    (mkSummaryResult sample100 sample20).compression_ratio =
      (wordCountS (strTrim sample20) : ℚ) / (wordCountS sample100 : ℚ) ∧
    (mkSummaryResult "" sample20).compression_ratio = 0 :=
  ⟨c8_compression_ratio_formula.1 sample100 sample20 (by decide),
   c8_compression_ratio_formula.2.1 "" sample20 rfl⟩

/-- Claim C9: for every telemetry behavior, including one that always
throws, track_summarization swallows the failure and returns the
result it was given unchanged, and the endpoint still answers with the
successful summarization result. -/
theorem c9_telemetry_never_affects_response (enabled : Bool)
    (logMetrics : TelemetryMetadata → Except PyErr Unit)
    (text slen : String) (result : SummaryResult) :
    trackSummarization enabled logMetrics text slen result = .ok result ∧
    summarizeArticle (.ok result) enabled logMetrics text slen = .success result := by
  have htrack : trackSummarization enabled logMetrics text slen result = .ok result := by
    cases enabled with
    | false => rfl
    | true =>
      cases hlm : logMetrics (metadataOf text slen result) with
      | ok u => simp [trackSummarization, hlm]
      | error e => simp [trackSummarization, hlm]
  refine ⟨htrack, ?_⟩
  simp [summarizeArticle, htrack]

/-- Claim C10: every text accepted by validation has at least 10
words, so the original word count computed by the result normalizer is
positive, the zero branch of the compression ratio is not taken, and
the ratio is the exact quotient of the word counts. -/
theorem c10_validated_text_ratio_exact (s t : List Char) (raw : String)
    (h : validateText s = .ok t) :
    10 ≤ (mkSummaryResult (String.mk t) raw).original_length ∧
    0 < (mkSummaryResult (String.mk t) raw).original_length ∧
    (mkSummaryResult (String.mk t) raw).compression_ratio =
      ((mkSummaryResult (String.mk t) raw).summary_length : ℚ) /
        ((mkSummaryResult (String.mk t) raw).original_length : ℚ) := by
  obtain ⟨ht, hw, h50, h5e4⟩ := validateText_ok_inv h
  have horig : (mkSummaryResult (String.mk t) raw).original_length = wordCount t := rfl
  have hpos : 0 < wordCountS (String.mk t) := by
    show 0 < wordCount t
    omega
  refine ⟨by rw [horig]; exact hw, by rw [horig]; omega, ?_⟩
  simp only [mkSummaryResult]
  rw [if_pos hpos]

/-- Witness for claim C10 at the valid 58 character input. -/
theorem c10_witness :
    10 ≤ (mkSummaryResult (String.mk (normalizeWs goodText)) sample20).original_length ∧
    0 < (mkSummaryResult (String.mk (normalizeWs goodText)) sample20).original_length ∧
    (mkSummaryResult (String.mk (normalizeWs goodText)) sample20).compression_ratio =
      ((mkSummaryResult (String.mk (normalizeWs goodText)) sample20).summary_length : ℚ) /
        ((mkSummaryResult (String.mk (normalizeWs goodText)) sample20).original_length : ℚ) :=
  c10_validated_text_ratio_exact goodText (normalizeWs goodText) sample20 rfl

end ArticleSummary
